import Mathlib

/-!
Shallow embedding of the ray-tracer core of ofApp.cpp / ofApp.h
(repository CS_116_midterm).  The scalar arithmetic of the C++ floats is
idealised as real arithmetic; the glm library functions are embedded from
glm 0.9.9 (the version bundled with openFrameworks 0.11, which this
project builds against).  ofColor channels are idealised as real numbers;
the uchar saturation of ofColor does not enter any property treated here.
-/

noncomputable section

open scoped Classical

/-- glm::vec3, with real components. -/
@[ext] structure Vec3 where
  x : ℝ
  y : ℝ
  z : ℝ

instance : Zero Vec3 := ⟨⟨0, 0, 0⟩⟩

instance : Add Vec3 := ⟨fun a b => ⟨a.x + b.x, a.y + b.y, a.z + b.z⟩⟩

instance : Sub Vec3 := ⟨fun a b => ⟨a.x - b.x, a.y - b.y, a.z - b.z⟩⟩

instance : SMul ℝ Vec3 := ⟨fun k a => ⟨k * a.x, k * a.y, k * a.z⟩⟩

/-- glm::dot. -/
def glmDot (a b : Vec3) : ℝ := a.x * b.x + a.y * b.y + a.z * b.z

/-- glm::length. -/
def glmLength (a : Vec3) : ℝ := Real.sqrt (glmDot a a)

/-- glm::distance. -/
def glmDistance (a b : Vec3) : ℝ := glmLength (a - b)

/-- glm::normalize: v scaled by the inverse of its length. -/
def glmNormalize (a : Vec3) : Vec3 := (1 / glmLength a) • a

/-- ofColor, with channels idealised as reals. -/
@[ext] structure Color where
  r : ℝ
  g : ℝ
  b : ℝ

instance : Zero Color := ⟨⟨0, 0, 0⟩⟩

instance : Add Color := ⟨fun a b => ⟨a.r + b.r, a.g + b.g, a.b + b.b⟩⟩

instance : HMul Color ℝ Color := ⟨fun c k => ⟨c.r * k, c.g * k, c.b * k⟩⟩

instance : HMul ℝ Color Color := ⟨fun k c => ⟨k * c.r, k * c.g, k * c.b⟩⟩

/-- std::numeric_limits<float>::epsilon(), the guard used by glm. -/
def glmEps : ℝ := 1 / 2 ^ 23

/-- FLT_MAX, the initial value of the closest-distance threshold in
ofApp::rayTrace. -/
def FLT_MAX : ℝ := (2 - 1 / 2 ^ 23) * 2 ^ 127

/-- glm::intersectRayPlane (glm 0.9.9): miss when the direction is within
epsilon of perpendicular to the plane normal, and only a parameter t > 0
counts as an intersection. -/
def intersectRayPlane (orig dir planeOrig planeNormal : Vec3) : Option ℝ :=
  let d := glmDot dir planeNormal
  if glmEps < |d| then
    let t := glmDot (planeOrig - orig) planeNormal / d
    if 0 < t then some t else none
  else none

/-- glm::intersectRaySphere, distance form (glm 0.9.9).  The direction is
assumed normalized by glm; radiusSq is the squared radius.  Returns the
reported ray parameter on a hit. -/
def intersectRaySphereDist (orig ndir center : Vec3) (radiusSq : ℝ) : Option ℝ :=
  let diff := center - orig
  let t0 := glmDot diff ndir
  let dSq := glmDot diff diff - t0 * t0
  if radiusSq < dSq then none
  else
    let t1 := Real.sqrt (radiusSq - dSq)
    let t := if t1 + glmEps < t0 then t0 - t1 else t0 + t1
    if glmEps < t then some t else none

/-- glm::intersectRaySphere, position/normal form: on a hit it reports the
intersection position and the normal (position - center) / radius. -/
def intersectRaySphere (orig ndir center : Vec3) (radius : ℝ) :
    Option (Vec3 × Vec3) :=
  match intersectRaySphereDist orig ndir center (radius * radius) with
  | some t => some (orig + t • ndir, (1 / radius) • (orig + t • ndir - center))
  | none => none

/-- Ray from ofApp.h. -/
structure Ray where
  p : Vec3
  d : Vec3

/-- Ray::evalPoint. -/
def Ray.evalPoint (r : Ray) (t : ℝ) : Vec3 := r.p + t • r.d

/-- Sphere from ofApp.h: the geometry and material fields together with
the two fields Sphere::intersect writes on every call (the cached normal
that getNormal later reads back, and the cached intersection point). -/
structure Sphere where
  position : Vec3
  radius : ℝ
  diffuseColor : Color
  specularColor : Color
  normal : Vec3
  intersectionPoint : Vec3

/-- Sphere::intersect.  The source normalizes ray.d before calling
glm::intersectRaySphere; for a zero direction IEEE normalize yields NaN,
every glm comparison on NaN is false and the out-parameters are left
untouched, so the call reports a miss — embedded here as the explicit
ray.d = 0 branch.  The result is (hit, out point, out normal, updated
sphere): on a miss glm leaves the out-parameters unchanged and the
source then caches those caller-supplied values back into the fields
(setNormal(normal); intersectionPoint = point). -/
def Sphere.intersect (s : Sphere) (ray : Ray) (point normal : Vec3) :
    Prop × Vec3 × Vec3 × Sphere :=
  if ray.d = 0 then
    (False, point, normal, { s with normal := normal, intersectionPoint := point })
  else
    match intersectRaySphere ray.p (glmNormalize ray.d) s.position s.radius with
    | some pn =>
        (True, pn.1, pn.2, { s with normal := pn.2, intersectionPoint := pn.1 })
    | none =>
        (False, point, normal, { s with normal := normal, intersectionPoint := point })

/-- Sphere::getNormal: returns the normalized cached normal and ignores
its argument. -/
def Sphere.getNormal (s : Sphere) (p : Vec3) : Vec3 := glmNormalize s.normal

/-- Plane from ofApp.h (the ofPlanePrimitive member used only for
on-screen drawing is omitted: it never feeds into intersection or
shading). -/
structure Plane where
  position : Vec3
  normal : Vec3
  width : ℝ
  height : ℝ
  diffuseColor : Color
  specularColor : Color
  intersectionPoint : Vec3

/-- Plane::intersect from ofApp.cpp: glm infinite-plane test first; on a
hit the out point, the cached intersection point and the out normal are
written, and the returned flag additionally requires the world point to
lie strictly inside the x-range (position.x ± width/2) and the z-range
(position.z ± height/2).  On a glm miss the out-parameters and the cache
are left unchanged. -/
def Plane.intersect (pl : Plane) (ray : Ray) (point normal : Vec3) :
    Prop × Vec3 × Vec3 × Plane :=
  match intersectRayPlane ray.p ray.d pl.position pl.normal with
  | some dist =>
      let pt := ray.evalPoint dist
      (pt.x < pl.position.x + pl.width / 2 ∧ pl.position.x - pl.width / 2 < pt.x ∧
         pt.z < pl.position.z + pl.height / 2 ∧ pl.position.z - pl.height / 2 < pt.z,
       pt, pl.normal, { pl with intersectionPoint := pt })
  | none => (False, point, normal, pl)

/-- Plane::getNormal: returns the plane's stored normal, ignoring its
argument. -/
def Plane.getNormal (pl : Plane) (p : Vec3) : Vec3 := pl.normal

/-- Plane::getIntersectionPoint. -/
def Plane.getIntersectionPoint (pl : Plane) : Vec3 := pl.intersectionPoint

/-- The SceneObject hierarchy restricted to the two concrete shapes the
renderer ever stores in its scene vector. -/
inductive SceneObj where
  | sphere (s : Sphere)
  | plane (pl : Plane)

def SceneObj.position : SceneObj → Vec3
  | .sphere s => s.position
  | .plane pl => pl.position

def SceneObj.diffuseColor : SceneObj → Color
  | .sphere s => s.diffuseColor
  | .plane pl => pl.diffuseColor

def SceneObj.specularColor : SceneObj → Color
  | .sphere s => s.specularColor
  | .plane pl => pl.specularColor

def SceneObj.intersectionPoint : SceneObj → Vec3
  | .sphere s => s.intersectionPoint
  | .plane pl => pl.intersectionPoint

/-- Virtual dispatch of intersect over the two shapes. -/
def SceneObj.intersect : SceneObj → Ray → Vec3 → Vec3 → Prop × Vec3 × Vec3 × SceneObj
  | .sphere s, r, p, n =>
      let res := s.intersect r p n
      (res.1, res.2.1, res.2.2.1, .sphere res.2.2.2)
  | .plane pl, r, p, n =>
      let res := pl.intersect r p n
      (res.1, res.2.1, res.2.2.1, .plane res.2.2.2)

/-- Virtual dispatch of getNormal. -/
def SceneObj.getNormal : SceneObj → Vec3 → Vec3
  | .sphere s, p => s.getNormal p
  | .plane pl, p => pl.getNormal p

/-- Virtual dispatch of getIntersectionPoint: only Plane overrides the
SceneObject base method, which returns glm::vec3(1); a Sphere therefore
reports (1,1,1). -/
def SceneObj.getIntersectionPoint : SceneObj → Vec3
  | .sphere _ => ⟨1, 1, 1⟩
  | .plane pl => pl.intersectionPoint

/-- Light (point light) from ofApp.h, restricted to the fields shading
reads. -/
structure Light where
  position : Vec3
  intensity : ℝ

/-- spotLight from ofApp.h, restricted to the fields spotLightLambert
reads (coneHeight defaults to 50 in the source). -/
structure SpotLight where
  position : Vec3
  intensity : ℝ
  aimPoint : Vec3
  coneHeight : ℝ

/-- ofApp::ambient: .05 * diffuse. -/
def ambient (diffuse : Color) : Color := (0.05 : ℝ) * diffuse

/-- ofApp::lambert.  The Ray parameter is unused, as in the source.  The
attenuation factor is written (light.intensity / distance * distance) in
the source, which by C++ precedence is (intensity / distance) * distance.
The leading 0 is the ofColor(0,0,0) initialiser the source accumulates
into. -/
def lambert (p norm : Vec3) (diffuse : Color) (distance : ℝ) (r : Ray)
    (light : Light) : Color :=
  let l := glmNormalize (light.position - p)
  (0 : Color) + diffuse * (light.intensity / distance * distance) *
    max 0 (glmDot norm l)

/-- ofApp::phong: lambert (at the recomputed light-to-point distance1)
plus the specular term.  The ambient(diffuse) summand present in the
commented-out line of the source is absent from the active line. -/
def phong (camPos : Vec3) (p norm : Vec3) (diffuse specular : Color)
    (power distance : ℝ) (r : Ray) (light : Light) : Color :=
  let l := glmNormalize (light.position - p)
  let v := glmNormalize (camPos - p)
  let h := glmNormalize (l + v)
  let distance1 := glmDistance light.position p
  (0 : Color) + (lambert p norm diffuse distance1 r light +
    specular * (light.intensity / distance1 * distance1) *
      (max 0 (glmDot norm h)) ^ power)

/-- ofApp::spotLightLambert: a ray from the render camera toward p is
tested against the sphere of radius coneHeight/2 about the spotlight's
aim point; only on a hit is the (unattenuated, see lambert) diffuse term
added.  The Ray parameter is unused, as in the source. -/
def spotLightLambert (camPos : Vec3) (p norm : Vec3) (diffuse : Color)
    (distance : ℝ) (r : Ray) (light : SpotLight) : Color :=
  let s : Ray := ⟨camPos, glmNormalize (p - camPos)⟩
  if (intersectRaySphere s.p s.d light.aimPoint (light.coneHeight / 2)).isSome then
    (0 : Color) + diffuse * (light.intensity / distance * distance) *
      max 0 (glmDot norm (glmNormalize (light.position - p)))
  else (0 : Color)

/-- Placeholder for the scene-vector accesses scene[0] and scene[1] in
ofApp::shade, which the C++ performs unconditionally (undefined for a
scene with fewer than two entries).  Field values are the SceneObject
defaults (grey diffuse, lightGray specular). -/
def defaultObj : SceneObj :=
  .sphere ⟨0, 1, ⟨128, 128, 128⟩, ⟨211, 211, 211⟩, 0, 0⟩

/-- Inner occluder loop of ofApp::shade: for j in [2, scene.size), set
blocked when scene[j] intersects the shadow ray.  The out-parameters of
these calls (p1 and the getNormal argument, which getNormal ignores) do
not influence the hit flag, and the cache writes they perform are never
read afterwards, so the embedding does not thread them. -/
def occBlock (scene : List SceneObj) (sRay : Ray) (b : Prop) : Prop :=
  (scene.drop 2).foldl
    (fun acc o =>
      if (o.intersect sRay o.intersectionPoint (o.getNormal o.intersectionPoint)).1
      then True else acc)
    b

/-- One of the two plane shadow checks in ofApp::shade: intersect the
primary ray with scene[idx]; on a hit, build the shadow ray from that
object's just-refreshed getIntersectionPoint() toward the light and run
the occluder loop over it. -/
def shadowCheck (scene : List SceneObj) (idx : ℕ) (r : Ray) (p outN : Vec3)
    (L : Light) (b : Prop) : Prop :=
  let o := scene.getD idx defaultObj
  let res := o.intersect r p outN
  if res.1 then
    let ip := res.2.2.2.getIntersectionPoint
    occBlock scene ⟨ip, L.position - ip⟩ b
  else b

/-- The blocked flag after the closestIndex < 2 branch of ofApp::shade:
the ground check (scene[0], out normal (0,1,0)) followed by the wall
check (scene[1], out normal (0,0,1)). -/
def lightBlocked (scene : List SceneObj) (r : Ray) (L : Light) (p : Vec3) : Prop :=
  shadowCheck scene 1 r p ⟨0, 0, 1⟩ L (shadowCheck scene 0 r p ⟨0, 1, 0⟩ L False)

/-- ofApp::shade: starting from ofColor(0,0,0), for each point light the
blocked flag is reset, computed only when closestIndex < 2, and the
light's phong contribution is added only when not blocked; afterwards
every spotlight's spotLightLambert contribution is added. -/
def shade (camPos : Vec3) (scene : List SceneObj) (closestIndex : ℕ)
    (lights : List Light) (spots : List SpotLight) (p norm : Vec3)
    (diffuse : Color) (distance : ℝ) (specular : Color) (power : ℝ)
    (r : Ray) : Color :=
  let afterLights := lights.foldl
    (fun acc L =>
      let blocked := if closestIndex < 2 then lightBlocked scene r L p else False
      if ¬ blocked then acc + phong camPos p norm diffuse specular power distance r L
      else acc)
    (0 : Color)
  spots.foldl
    (fun acc S => acc + spotLightLambert camPos p norm diffuse distance r S)
    afterLights

/-- ViewPlane from ofApp.h: the view rectangle min/max corners in the
camera's local XY and the plane's z offset (defaults (-3,-2), (3,2), 5). -/
structure ViewPlane where
  min : ℝ × ℝ
  max : ℝ × ℝ
  positionZ : ℝ

def ViewPlane.width (v : ViewPlane) : ℝ := v.max.1 - v.min.1

def ViewPlane.height (v : ViewPlane) : ℝ := v.max.2 - v.min.2

/-- ViewPlane::toWorld. -/
def ViewPlane.toWorld (vp : ViewPlane) (u v : ℝ) : Vec3 :=
  ⟨u * vp.width + vp.min.1, v * vp.height + vp.min.2, vp.positionZ⟩

/-- RenderCam from ofApp.h (position defaults to (0,0,25)). -/
structure RenderCam where
  position : Vec3
  view : ViewPlane

/-- RenderCam::getRay. -/
def RenderCam.getRay (cam : RenderCam) (u v : ℝ) : Ray :=
  ⟨cam.position, glmNormalize (cam.view.toWorld u v - cam.position)⟩

/-- ofColor::black, the color ofApp::rayTrace stores for background
pixels. -/
def black : Color := ⟨0, 0, 0⟩

/-- ofColor::lightGray, the specular color ofApp::rayTrace passes to
shade. -/
def lightGray : Color := ⟨211, 211, 211⟩

/-- The per-pixel mutable state of ofApp::rayTrace: the background flag,
the running closest distance (initially FLT_MAX), the index of the
closest object, and the scene vector whose objects the intersect calls
mutate in place. -/
structure TraceState where
  background : Prop
  close : ℝ
  closestIndex : ℕ
  scene : List SceneObj

/-- One iteration of the scene loop of ofApp::rayTrace: intersect object
k (the out point parameter is the object's own intersectionPoint field,
the out normal a temporary (0,1,0)); on a hit clear the background flag,
measure glm::distance from the ray origin to the object's position, and
take over as closest on a strictly smaller distance. -/
def traceStep (r : Ray) (st : TraceState) (k : ℕ) : TraceState :=
  let o := st.scene.getD k defaultObj
  let res := o.intersect r o.intersectionPoint ⟨0, 1, 0⟩
  let scene1 := st.scene.set k res.2.2.2
  if res.1 then
    let distance := glmDistance r.p o.position
    if distance < st.close then ⟨False, distance, k, scene1⟩
    else ⟨False, st.close, st.closestIndex, scene1⟩
  else ⟨st.background, st.close, st.closestIndex, scene1⟩

/-- The whole per-pixel scene loop of ofApp::rayTrace. -/
def traceLoop (r : Ray) (scene : List SceneObj) : TraceState :=
  (List.range scene.length).foldl (traceStep r) ⟨True, FLT_MAX, 0, scene⟩

/-- The per-ray tail of ofApp::rayTrace: run the scene loop; on
background store black, otherwise shade at r.evalPoint(close) with the
closest object's getNormal (called on the temporary glm::vec3(0,0,0))
and diffuse color, the close distance, and the lightGray specular. -/
def rayTraceWithRay (cam : RenderCam) (scene : List SceneObj)
    (lights : List Light) (spots : List SpotLight) (power : ℝ)
    (r : Ray) : Color :=
  let st := traceLoop r scene
  if st.background then black
  else
    shade cam.position st.scene st.closestIndex lights spots
      (r.evalPoint st.close)
      ((st.scene.getD st.closestIndex defaultObj).getNormal ⟨0, 0, 0⟩)
      ((st.scene.getD st.closestIndex defaultObj).diffuseColor)
      st.close lightGray power r

/-- One pixel of ofApp::rayTrace: u is the pixel-center fraction of the
image width, v the flipped pixel-center fraction of the height, and the
ray is the render camera's ray through (u, v). -/
def rayTracePixel (cam : RenderCam) (scene : List SceneObj)
    (lights : List Light) (spots : List SpotLight) (power : ℝ)
    (W H : ℝ) (i j : ℕ) : Color :=
  rayTraceWithRay cam scene lights spots power
    (cam.getRay (((i : ℝ) + 0.5) / W) (1 - ((j : ℝ) + 0.5) / H))

/-- Sum of a list of colors (right fold from black). -/
def colorSum (l : List Color) : Color := l.foldr (fun c acc => c + acc) 0

/-- Canonical hit predicate: the hit flag of intersect, which is
independent of the out-parameters. -/
def SceneObj.hit (o : SceneObj) (r : Ray) : Prop := (o.intersect r 0 0).1

/-- Hit of the k-th scene entry by the ray r, over a scene snapshot. -/
def sceneHit (scene : List SceneObj) (r : Ray) (k : ℕ) : Prop :=
  (scene.getD k defaultObj).hit r

/-- The distance ofApp::rayTrace measures for the k-th scene entry: from
the ray origin to the object's position field. -/
def sceneDist (scene : List SceneObj) (r : Ray) (k : ℕ) : ℝ :=
  glmDistance r.p ((scene.getD k defaultObj).position)

/-- The scene loop of ofApp::rayTrace stopped after its first n
iterations. -/
def traceUpTo (r : Ray) (scene : List SceneObj) (n : ℕ) : TraceState :=
  (List.range n).foldl (traceStep r) ⟨True, FLT_MAX, 0, scene⟩

/-- A sphere of radius 1 at (0,0,-5) (cached fields zero-initialised). -/
def sphA : Sphere := ⟨⟨0, 0, -5⟩, 1, ⟨128, 128, 128⟩, ⟨211, 211, 211⟩, ⟨0, 0, 0⟩, ⟨0, 0, 0⟩⟩

/-- A sphere of radius 1 at (0,0,-2). -/
def sphB : Sphere := ⟨⟨0, 0, -2⟩, 1, ⟨100, 100, 100⟩, ⟨211, 211, 211⟩, ⟨0, 0, 0⟩, ⟨0, 0, 0⟩⟩

/-- A two-sphere scene probed by the ray rW. -/
def sceneW : List SceneObj := [.sphere sphA, .sphere sphB]

/-- A ray from the origin looking down -z. -/
def rW : Ray := ⟨⟨0, 0, 0⟩, ⟨0, 0, -1⟩⟩

/-- The ground plane of ofApp::draw: Plane((0,-5,0), (0,1,0), darkBlue,
600, 400); ofColor::darkBlue is (0,0,139). -/
def groundPl : Plane :=
  ⟨⟨0, -5, 0⟩, ⟨0, 1, 0⟩, 600, 400, ⟨0, 0, 139⟩, ⟨211, 211, 211⟩, ⟨0, 0, 0⟩⟩

/-- A back-wall style finite plane with normal (0,0,1), a 20 by 20 patch
centred at the origin. -/
def wallPl : Plane :=
  ⟨⟨0, 0, 0⟩, ⟨0, 0, 1⟩, 20, 20, ⟨0, 0, 139⟩, ⟨211, 211, 211⟩, ⟨0, 0, 0⟩⟩

/-- A ray aimed at the infinite plane of wallPl far above the patch. -/
def wallRay : Ray := ⟨⟨0, 1000, 5⟩, ⟨0, 0, -1⟩⟩

/-- A spotlight at (0,0,-1) of unit intensity aiming at (0,0,-4) with
coneHeight 4 (bounding-sphere radius 2). -/
def spotC : SpotLight := ⟨⟨0, 0, -1⟩, 1, ⟨0, 0, -4⟩, 4⟩

/-- The single-sphere scene [sphA]. -/
def sceneS : List SceneObj := [.sphere sphA]

/-- The top-right point light of ofApp::draw: Light((100,150,150), .2). -/
def lightTop : Light := ⟨⟨100, 150, 150⟩, 0.2⟩

/-- The point light of the shadow counterexample, 2 units above the
ground hit point (0,-5,0). -/
def L4 : Light := ⟨⟨0, -3, 0⟩, 1⟩

/-- The occluding sphere of the shadow counterexample, placed on the
shadow ray but beyond the light. -/
def occSph : Sphere :=
  ⟨⟨0, 5, 0⟩, 1, ⟨128, 128, 128⟩, ⟨211, 211, 211⟩, ⟨0, 0, 0⟩, ⟨0, 0, 0⟩⟩

/-- Shadow counterexample scene: ground plane, wall plane, occluder. -/
def scene4 : List SceneObj := [.plane groundPl, .plane wallPl, .sphere occSph]

/-- Primary ray of the shadow counterexample, falling straight down onto
the ground plane. -/
def r4 : Ray := ⟨⟨0, 5, 0⟩, ⟨0, -1, 0⟩⟩

end

noncomputable section

/-! Basic algebra lemmas for the embedded vector and color types. -/

@[simp] theorem vec3_zero_def : (0 : Vec3) = ⟨0, 0, 0⟩ := rfl

@[simp] theorem vec3_add_def (a b : Vec3) :
    a + b = ⟨a.x + b.x, a.y + b.y, a.z + b.z⟩ := rfl

@[simp] theorem Vec3.sub_def (a b : Vec3) :
    a - b = ⟨a.x - b.x, a.y - b.y, a.z - b.z⟩ := rfl

@[simp] theorem Vec3.smul_def (k : ℝ) (a : Vec3) :
    k • a = ⟨k * a.x, k * a.y, k * a.z⟩ := rfl

@[simp] theorem color_zero_def : (0 : Color) = ⟨0, 0, 0⟩ := rfl

@[simp] theorem color_add_def (a b : Color) :
    a + b = ⟨a.r + b.r, a.g + b.g, a.b + b.b⟩ := rfl

@[simp] theorem Color.mul_real_def (c : Color) (k : ℝ) :
    c * k = ⟨c.r * k, c.g * k, c.b * k⟩ := rfl

@[simp] theorem Color.real_mul_def (k : ℝ) (c : Color) :
    k * c = ⟨k * c.r, k * c.g, k * c.b⟩ := rfl

theorem Color.zero_add' (a : Color) : (0 : Color) + a = a := by
  ext <;> simp

theorem Color.add_zero' (a : Color) : a + (0 : Color) = a := by
  ext <;> simp

theorem Color.add_assoc' (a b c : Color) : a + b + c = a + (b + c) := by
  ext <;> simp <;> ring

theorem colorSum_nil : colorSum [] = 0 := rfl

theorem colorSum_cons (c : Color) (l : List Color) :
    colorSum (c :: l) = c + colorSum l := rfl

/-- A left fold accumulating colors equals the initial value plus the sum
of the mapped list. -/
theorem foldl_add_colorSum {α : Type} (f : α → Color) (l : List α)
    (init : Color) :
    l.foldl (fun acc x => acc + f x) init = init + colorSum (l.map f) := by
  induction l generalizing init with
  | nil => simp [colorSum_nil, Color.add_zero']
  | cons a l ih =>
      simp only [List.foldl_cons, List.map_cons, colorSum_cons]
      rw [ih, Color.add_assoc']

/-- Evaluation helper for concrete square roots. -/
theorem sqrt_eval (a b : ℝ) (hb : 0 ≤ b) (h : a = b * b) : Real.sqrt a = b := by
  rw [h, Real.sqrt_mul_self hb]

end

noncomputable section

/-! Characterizations of the intersect functions: the hit flag depends
only on the ray and the geometry fields, never on the out-parameters or
the cached fields, and the updated object keeps every geometry and
material field. -/

theorem sphere_intersect_hit_iff (s : Sphere) (ray : Ray) (p n : Vec3) :
    (s.intersect ray p n).1 ↔
      ¬ ray.d = 0 ∧
        (intersectRaySphere ray.p (glmNormalize ray.d) s.position s.radius).isSome := by
  unfold Sphere.intersect
  by_cases h : ray.d = 0
  · simp [h]
  · simp only [if_neg h]
    cases hm : intersectRaySphere ray.p (glmNormalize ray.d) s.position s.radius with
    | some pn => simpa [hm] using h
    | none => simp [hm, h]

theorem plane_intersect_hit_iff (pl : Plane) (ray : Ray) (p n : Vec3) :
    (pl.intersect ray p n).1 ↔
      ∃ t, intersectRayPlane ray.p ray.d pl.position pl.normal = some t ∧
        ((ray.evalPoint t).x < pl.position.x + pl.width / 2 ∧
         pl.position.x - pl.width / 2 < (ray.evalPoint t).x ∧
         (ray.evalPoint t).z < pl.position.z + pl.height / 2 ∧
         pl.position.z - pl.height / 2 < (ray.evalPoint t).z) := by
  unfold Plane.intersect
  cases hm : intersectRayPlane ray.p ray.d pl.position pl.normal with
  | some t => simp [hm]
  | none => simp [hm]

theorem sphere_intersect_fields (s : Sphere) (ray : Ray) (p n : Vec3) :
    ((s.intersect ray p n).2.2.2).position = s.position ∧
    ((s.intersect ray p n).2.2.2).radius = s.radius ∧
    ((s.intersect ray p n).2.2.2).diffuseColor = s.diffuseColor ∧
    ((s.intersect ray p n).2.2.2).specularColor = s.specularColor := by
  unfold Sphere.intersect
  by_cases h : ray.d = 0
  · simp [h]
  · simp only [if_neg h]
    cases hm : intersectRaySphere ray.p (glmNormalize ray.d) s.position s.radius with
    | some pn => simp [hm]
    | none => simp [hm]

theorem plane_intersect_fields (pl : Plane) (ray : Ray) (p n : Vec3) :
    ((pl.intersect ray p n).2.2.2).position = pl.position ∧
    ((pl.intersect ray p n).2.2.2).normal = pl.normal ∧
    ((pl.intersect ray p n).2.2.2).width = pl.width ∧
    ((pl.intersect ray p n).2.2.2).height = pl.height ∧
    ((pl.intersect ray p n).2.2.2).diffuseColor = pl.diffuseColor ∧
    ((pl.intersect ray p n).2.2.2).specularColor = pl.specularColor := by
  unfold Plane.intersect
  cases hm : intersectRayPlane ray.p ray.d pl.position pl.normal with
  | some t => simp [hm]
  | none => simp [hm]

theorem SceneObj.intersect_fst_eq (o : SceneObj) (r : Ray) (p n : Vec3) :
    (o.intersect r p n).1 ↔ o.hit r := by
  cases o with
  | sphere s => simp [SceneObj.intersect, SceneObj.hit, sphere_intersect_hit_iff]
  | plane pl => simp [SceneObj.intersect, SceneObj.hit, plane_intersect_hit_iff]

theorem SceneObj.intersect_position (o : SceneObj) (r : Ray) (p n : Vec3) :
    ((o.intersect r p n).2.2.2).position = o.position := by
  cases o with
  | sphere s =>
      simp [SceneObj.intersect, SceneObj.position, (sphere_intersect_fields s r p n).1]
  | plane pl =>
      simp [SceneObj.intersect, SceneObj.position, (plane_intersect_fields pl r p n).1]

theorem SceneObj.intersect_diffuse (o : SceneObj) (r : Ray) (p n : Vec3) :
    ((o.intersect r p n).2.2.2).diffuseColor = o.diffuseColor := by
  cases o with
  | sphere s =>
      simp [SceneObj.intersect, SceneObj.diffuseColor,
        (sphere_intersect_fields s r p n).2.2.1]
  | plane pl =>
      simp [SceneObj.intersect, SceneObj.diffuseColor,
        (plane_intersect_fields pl r p n).2.2.2.2.1]

theorem SceneObj.intersect_hit_stable (o : SceneObj) (r : Ray) (p n : Vec3)
    (r2 : Ray) : ((o.intersect r p n).2.2.2).hit r2 ↔ o.hit r2 := by
  cases o with
  | sphere s =>
      have hg := sphere_intersect_fields s r p n
      simp [SceneObj.intersect, SceneObj.hit, sphere_intersect_hit_iff, hg.1, hg.2.1]
  | plane pl =>
      have hg := plane_intersect_fields pl r p n
      simp [SceneObj.intersect, SceneObj.hit, plane_intersect_hit_iff, hg.1, hg.2.1,
        hg.2.2.1, hg.2.2.2.1]

/-! List getD/set helpers used by the scene-loop invariant. -/

theorem getD_set_ne {α : Type} (l : List α) (i k : ℕ) (a d : α) (h : i ≠ k) :
    (l.set i a).getD k d = l.getD k d := by
  induction l generalizing i k with
  | nil => simp
  | cons hd tl ih =>
      cases i with
      | zero =>
          cases k with
          | zero => exact absurd rfl h
          | succ k => simp [List.set, List.getD]
      | succ i =>
          cases k with
          | zero => simp [List.set, List.getD]
          | succ k =>
              simp only [List.set, List.getD_cons_succ]
              exact ih i k (fun hik => h (by rw [hik]))

theorem getD_set_self {α : Type} (l : List α) (i : ℕ) (a d : α)
    (h : i < l.length) : (l.set i a).getD i d = a := by
  induction l generalizing i with
  | nil => simp at h
  | cons hd tl ih =>
      cases i with
      | zero => simp [List.set, List.getD]
      | succ i =>
          simp only [List.set, List.getD_cons_succ]
          exact ih i (by simpa using h)

end

noncomputable section

theorem traceLoop_eq_upTo (r : Ray) (scene : List SceneObj) :
    traceLoop r scene = traceUpTo r scene scene.length := rfl

theorem traceUpTo_succ (r : Ray) (scene : List SceneObj) (n : ℕ) :
    traceUpTo r scene (n + 1) = traceStep r (traceUpTo r scene n) n := by
  unfold traceUpTo
  rw [List.range_succ, List.foldl_append]
  rfl

/-- Full invariant of the scene loop of ofApp::rayTrace after n
iterations: the threaded scene keeps its length, its yet-unvisited
entries, and every entry's geometry (position and hit behaviour); the
background flag is the statement that no visited entry was hit; while
the background flag stands the threshold and index keep their initial
values; and once it falls, closestIndex is a visited hit entry of
minimal measured distance, earliest in scene order among equals
(provided every hit distance is below the FLT_MAX sentinel). -/
theorem traceUpTo_invariant (r : Ray) (scene : List SceneObj) (n : ℕ)
    (hn : n ≤ scene.length) :
    (traceUpTo r scene n).scene.length = scene.length ∧
    (∀ k, n ≤ k →
      (traceUpTo r scene n).scene.getD k defaultObj = scene.getD k defaultObj) ∧
    (∀ k, ((traceUpTo r scene n).scene.getD k defaultObj).position =
      (scene.getD k defaultObj).position) ∧
    (∀ k r2, ((traceUpTo r scene n).scene.getD k defaultObj).hit r2 ↔
      (scene.getD k defaultObj).hit r2) ∧
    ((traceUpTo r scene n).background ↔ ∀ k, k < n → ¬ sceneHit scene r k) ∧
    ((traceUpTo r scene n).background →
      (traceUpTo r scene n).close = FLT_MAX ∧
      (traceUpTo r scene n).closestIndex = 0) ∧
    ((∀ k, k < scene.length → sceneHit scene r k → sceneDist scene r k < FLT_MAX) →
      ¬ (traceUpTo r scene n).background →
      (traceUpTo r scene n).closestIndex < n ∧
      sceneHit scene r (traceUpTo r scene n).closestIndex ∧
      (traceUpTo r scene n).close =
        sceneDist scene r (traceUpTo r scene n).closestIndex ∧
      (∀ k, k < n → sceneHit scene r k →
        (traceUpTo r scene n).close ≤ sceneDist scene r k ∧
        (sceneDist scene r k = (traceUpTo r scene n).close →
          (traceUpTo r scene n).closestIndex ≤ k))) := by
  induction n with
  | zero =>
      have h0 : traceUpTo r scene 0 = ⟨True, FLT_MAX, 0, scene⟩ := rfl
      rw [h0]
      refine ⟨rfl, fun k _ => rfl, fun k => rfl, fun k r2 => Iff.rfl, ?_, ?_, ?_⟩
      · simpa using fun k hk => absurd hk (Nat.not_lt_zero k)
      · exact fun _ => ⟨rfl, rfl⟩
      · intro _ hbg
        exact absurd trivial hbg
  | succ n ih =>
      have hn' : n ≤ scene.length := Nat.le_of_succ_le hn
      obtain ⟨ih1, ih2, ih3, ih4, ih5, ih6, ih7⟩ := ih hn'
      have hstep := traceUpTo_succ r scene n
      have ho : (traceUpTo r scene n).scene.getD n defaultObj =
          scene.getD n defaultObj := ih2 n le_rfl
      have hres_iff :
          (((traceUpTo r scene n).scene.getD n defaultObj).intersect r
            ((traceUpTo r scene n).scene.getD n defaultObj).intersectionPoint
            ⟨0, 1, 0⟩).1 ↔ sceneHit scene r n := by
        rw [SceneObj.intersect_fst_eq, ho]
        exact Iff.rfl
      have hnlen : n < (traceUpTo r scene n).scene.length := by
        rw [ih1]; exact Nat.lt_of_succ_le hn
      have hscene : (traceUpTo r scene (n + 1)).scene =
          (traceUpTo r scene n).scene.set n
            (((traceUpTo r scene n).scene.getD n defaultObj).intersect r
              ((traceUpTo r scene n).scene.getD n defaultObj).intersectionPoint
              ⟨0, 1, 0⟩).2.2.2 := by
        rw [hstep]
        simp only [traceStep]
        split_ifs <;> rfl
      have hc1 : (traceUpTo r scene (n + 1)).scene.length = scene.length := by
        rw [hscene, List.length_set, ih1]
      have hc2 : ∀ k, n + 1 ≤ k →
          (traceUpTo r scene (n + 1)).scene.getD k defaultObj =
            scene.getD k defaultObj := by
        intro k hk
        rw [hscene, getD_set_ne _ _ _ _ _ (Nat.ne_of_lt (Nat.lt_of_succ_le hk))]
        exact ih2 k (Nat.le_of_succ_le hk)
      have hc3 : ∀ k, ((traceUpTo r scene (n + 1)).scene.getD k defaultObj).position =
          (scene.getD k defaultObj).position := by
        intro k
        by_cases hkn : k = n
        · subst hkn
          rw [hscene, getD_set_self _ _ _ _ hnlen, SceneObj.intersect_position]
          exact ih3 k
        · rw [hscene, getD_set_ne _ _ _ _ _ (fun h => hkn h.symm)]
          exact ih3 k
      have hc4 : ∀ k r2, ((traceUpTo r scene (n + 1)).scene.getD k defaultObj).hit r2 ↔
          (scene.getD k defaultObj).hit r2 := by
        intro k r2
        by_cases hkn : k = n
        · subst hkn
          rw [hscene, getD_set_self _ _ _ _ hnlen, SceneObj.intersect_hit_stable]
          exact ih4 k r2
        · rw [hscene, getD_set_ne _ _ _ _ _ (fun h => hkn h.symm)]
          exact ih4 k r2
      by_cases hhit : sceneHit scene r n
      · -- object n is hit: the background flag falls
        have hres1 : (((traceUpTo r scene n).scene.getD n defaultObj).intersect r
            ((traceUpTo r scene n).scene.getD n defaultObj).intersectionPoint
            ⟨0, 1, 0⟩).1 := hres_iff.mpr hhit
        have hDthr : glmDistance r.p
            ((traceUpTo r scene n).scene.getD n defaultObj).position =
            sceneDist scene r n := by
          rw [ih3 n]; rfl
        by_cases hlt : glmDistance r.p
            ((traceUpTo r scene n).scene.getD n defaultObj).position <
            (traceUpTo r scene n).close
        · -- strictly closer: take over as the closest object
          have hlit : traceUpTo r scene (n + 1) =
              ⟨False, glmDistance r.p
                  ((traceUpTo r scene n).scene.getD n defaultObj).position, n,
                (traceUpTo r scene n).scene.set n
                  (((traceUpTo r scene n).scene.getD n defaultObj).intersect r
                    ((traceUpTo r scene n).scene.getD n defaultObj).intersectionPoint
                    ⟨0, 1, 0⟩).2.2.2⟩ := by
            rw [hstep]
            simp only [traceStep]
            rw [if_pos hres1, if_pos hlt]
          refine ⟨hc1, hc2, hc3, hc4, ?_, ?_, ?_⟩
          · rw [hlit]
            simp only [false_iff]
            intro hall
            exact hall n (Nat.lt_succ_self n) hhit
          · rw [hlit]
            intro h
            exact absurd h (by simp)
          · intro HD _
            rw [hlit]
            refine ⟨Nat.lt_succ_self n, hhit, hDthr, ?_⟩
            intro k hk hkhit
            rcases Nat.lt_succ_iff_lt_or_eq.mp hk with hkn | hkn
            · by_cases hbg : (traceUpTo r scene n).background
              · exact absurd hkhit (ih5.mp hbg k hkn)
              · obtain ⟨_, _, _, hmin⟩ := ih7 HD hbg
                have hkm := (hmin k hkn hkhit).1
                have hlt2 : sceneDist scene r n < sceneDist scene r k := by
                  rw [← hDthr]
                  exact lt_of_lt_of_le hlt hkm
                rw [hDthr]
                constructor
                · exact le_of_lt hlt2
                · intro heq
                  exact absurd heq (ne_of_gt hlt2)
            · subst hkn
              rw [hDthr]
              exact ⟨le_refl _, fun _ => le_refl _⟩
        · -- hit but not closer: keep the previous closest
          have hlit : traceUpTo r scene (n + 1) =
              ⟨False, (traceUpTo r scene n).close,
                (traceUpTo r scene n).closestIndex,
                (traceUpTo r scene n).scene.set n
                  (((traceUpTo r scene n).scene.getD n defaultObj).intersect r
                    ((traceUpTo r scene n).scene.getD n defaultObj).intersectionPoint
                    ⟨0, 1, 0⟩).2.2.2⟩ := by
            rw [hstep]
            simp only [traceStep]
            rw [if_pos hres1, if_neg hlt]
          refine ⟨hc1, hc2, hc3, hc4, ?_, ?_, ?_⟩
          · rw [hlit]
            simp only [false_iff]
            intro hall
            exact hall n (Nat.lt_succ_self n) hhit
          · rw [hlit]
            intro h
            exact absurd h (by simp)
          · intro HD _
            have hbg : ¬ (traceUpTo r scene n).background := by
              intro hbg
              obtain ⟨hcl, _⟩ := ih6 hbg
              have := HD n (Nat.lt_of_succ_le hn) hhit
              rw [← hDthr, ← hcl] at this
              exact hlt this
            obtain ⟨hidx, hhidx, hclose, hmin⟩ := ih7 HD hbg
            rw [hlit]
            refine ⟨Nat.lt_succ_of_lt hidx, hhidx, hclose, ?_⟩
            intro k hk hkhit
            rcases Nat.lt_succ_iff_lt_or_eq.mp hk with hkn | hkn
            · exact hmin k hkn hkhit
            · subst hkn
              constructor
              · rw [← hDthr]
                exact le_of_not_lt hlt
              · intro _
                exact Nat.le_of_lt hidx
      · -- object n missed: everything but the threaded scene is carried
        have hres1 : ¬ (((traceUpTo r scene n).scene.getD n defaultObj).intersect r
            ((traceUpTo r scene n).scene.getD n defaultObj).intersectionPoint
            ⟨0, 1, 0⟩).1 := fun h => hhit (hres_iff.mp h)
        have hlit : traceUpTo r scene (n + 1) =
            ⟨(traceUpTo r scene n).background, (traceUpTo r scene n).close,
              (traceUpTo r scene n).closestIndex,
              (traceUpTo r scene n).scene.set n
                (((traceUpTo r scene n).scene.getD n defaultObj).intersect r
                  ((traceUpTo r scene n).scene.getD n defaultObj).intersectionPoint
                  ⟨0, 1, 0⟩).2.2.2⟩ := by
          rw [hstep]
          simp only [traceStep]
          rw [if_neg hres1]
        refine ⟨hc1, hc2, hc3, hc4, ?_, ?_, ?_⟩
        · rw [hlit]
          simp only []
          rw [ih5]
          constructor
          · intro hall k hk
            rcases Nat.lt_succ_iff_lt_or_eq.mp hk with hkn | hkn
            · exact hall k hkn
            · subst hkn; exact hhit
          · intro hall k hk
            exact hall k (Nat.lt_succ_of_lt hk)
        · rw [hlit]
          exact ih6
        · intro HD hbg
          rw [hlit] at hbg ⊢
          obtain ⟨hidx, hhidx, hclose, hmin⟩ := ih7 HD hbg
          refine ⟨Nat.lt_succ_of_lt hidx, hhidx, hclose, ?_⟩
          intro k hk hkhit
          rcases Nat.lt_succ_iff_lt_or_eq.mp hk with hkn | hkn
          · exact hmin k hkn hkhit
          · subst hkn
            exact absurd hkhit hhit

end

noncomputable section

/-! Evaluation helpers for the glm intersection routines on concrete
inputs. -/

theorem glmNormalize_eval (v : Vec3) (len : ℝ)
    (h : Real.sqrt (glmDot v v) = len) : glmNormalize v = (1 / len) • v := by
  unfold glmNormalize glmLength
  rw [h]

theorem intersectRaySphereDist_eval_far (orig ndir center : Vec3)
    (radiusSq t0 dSq t1 : ℝ)
    (h0 : glmDot (center - orig) ndir = t0)
    (h1 : glmDot (center - orig) (center - orig) - t0 * t0 = dSq)
    (h2 : ¬ radiusSq < dSq)
    (h3 : Real.sqrt (radiusSq - dSq) = t1)
    (h4 : t1 + glmEps < t0)
    (h5 : glmEps < t0 - t1) :
    intersectRaySphereDist orig ndir center radiusSq = some (t0 - t1) := by
  simp only [intersectRaySphereDist, h0, h1, h3]
  rw [if_neg h2, if_pos h4, if_pos h5]

theorem intersectRayPlane_eval_hit (orig dir po pn : Vec3) (t : ℝ)
    (h1 : glmEps < |glmDot dir pn|)
    (h2 : glmDot (po - orig) pn / glmDot dir pn = t)
    (h3 : 0 < t) :
    intersectRayPlane orig dir po pn = some t := by
  simp only [intersectRayPlane, h2]
  rw [if_pos h1, if_pos h3]

theorem intersectRayPlane_eval_parallel (orig dir po pn : Vec3)
    (h1 : glmDot dir pn = 0) :
    intersectRayPlane orig dir po pn = none := by
  simp only [intersectRayPlane, h1]
  rw [if_neg]
  simp [glmEps]

end

noncomputable section

/-! Concrete scene material shared by several developments below. -/


end

noncomputable section

theorem negz_ne_zero : ¬ (⟨0, 0, -1⟩ : Vec3) = 0 := by
  intro h
  have hz := congrArg Vec3.z h
  rw [vec3_zero_def] at hz
  norm_num at hz

theorem glmNormalize_negz : glmNormalize ⟨0, 0, -1⟩ = ⟨0, 0, -1⟩ := by
  rw [glmNormalize_eval ⟨0, 0, -1⟩ 1 (by rw [glmDot]; norm_num)]
  ext <;> norm_num

theorem sphA_dist_eval :
    intersectRaySphereDist ⟨0, 0, 0⟩ ⟨0, 0, -1⟩ ⟨0, 0, -5⟩ (1 * 1) = some 4 := by
  have h := intersectRaySphereDist_eval_far ⟨0, 0, 0⟩ ⟨0, 0, -1⟩ ⟨0, 0, -5⟩
    (1 * 1) 5 0 1
    (by rw [glmDot]; norm_num)
    (by rw [glmDot]; norm_num)
    (by norm_num)
    (by norm_num)
    (by norm_num [glmEps])
    (by norm_num [glmEps])
  rw [show (4 : ℝ) = 5 - 1 by norm_num]
  exact h

theorem sphB_dist_eval :
    intersectRaySphereDist ⟨0, 0, 0⟩ ⟨0, 0, -1⟩ ⟨0, 0, -2⟩ (1 * 1) = some 1 := by
  have h := intersectRaySphereDist_eval_far ⟨0, 0, 0⟩ ⟨0, 0, -1⟩ ⟨0, 0, -2⟩
    (1 * 1) 2 0 1
    (by rw [glmDot]; norm_num)
    (by rw [glmDot]; norm_num)
    (by norm_num)
    (by norm_num)
    (by norm_num [glmEps])
    (by norm_num [glmEps])
  convert h using 2
  norm_num

theorem sphA_hit : sceneHit sceneW rW 0 := by
  have h0 : sceneW.getD 0 defaultObj = .sphere sphA := rfl
  rw [sceneHit, h0, SceneObj.hit]
  show (sphA.intersect rW 0 0).1
  rw [sphere_intersect_hit_iff]
  constructor
  · exact negz_ne_zero
  · rw [show rW.p = ⟨0, 0, 0⟩ from rfl, show rW.d = ⟨0, 0, -1⟩ from rfl,
      glmNormalize_negz, show sphA.position = ⟨0, 0, -5⟩ from rfl,
      show sphA.radius = 1 from rfl]
    unfold intersectRaySphere
    rw [sphA_dist_eval]
    rfl

theorem sphB_hit : sceneHit sceneW rW 1 := by
  have h0 : sceneW.getD 1 defaultObj = .sphere sphB := rfl
  rw [sceneHit, h0, SceneObj.hit]
  show (sphB.intersect rW 0 0).1
  rw [sphere_intersect_hit_iff]
  constructor
  · exact negz_ne_zero
  · rw [show rW.p = ⟨0, 0, 0⟩ from rfl, show rW.d = ⟨0, 0, -1⟩ from rfl,
      glmNormalize_negz, show sphB.position = ⟨0, 0, -2⟩ from rfl,
      show sphB.radius = 1 from rfl]
    unfold intersectRaySphere
    rw [sphB_dist_eval]
    rfl

theorem distW0 : sceneDist sceneW rW 0 = 5 := by
  rw [sceneDist]
  show glmDistance ⟨0, 0, 0⟩ ⟨0, 0, -5⟩ = 5
  rw [glmDistance, glmLength, glmDot]
  norm_num
  exact sqrt_eval 25 5 (by norm_num) (by norm_num)

theorem distW1 : sceneDist sceneW rW 1 = 2 := by
  rw [sceneDist]
  show glmDistance ⟨0, 0, 0⟩ ⟨0, 0, -2⟩ = 2
  rw [glmDistance, glmLength, glmDot]
  norm_num
  exact sqrt_eval 4 2 (by norm_num) (by norm_num)

end

noncomputable section

/-- C3: for every ray and every non-empty scene list, the scene loop of
ofApp::rayTrace tests every primitive; its background flag holds exactly
when no primitive reports a hit, and otherwise closestIndex is a hit
primitive whose measured distance — the Euclidean distance from the ray
origin to the primitive's position field, not to the actual hit point —
is minimal, with ties resolved to the lowest index (under the
representability assumption that every hit distance is below the
FLT_MAX sentinel the loop starts from). -/
theorem rayTrace_nearest_hit (r : Ray) (scene : List SceneObj)
    (hne : scene ≠ [])
    (HD : ∀ k, k < scene.length → sceneHit scene r k →
      sceneDist scene r k < FLT_MAX) :
    ((traceLoop r scene).background ↔
      ∀ k, k < scene.length → ¬ sceneHit scene r k) ∧
    (¬ (traceLoop r scene).background →
      (traceLoop r scene).closestIndex < scene.length ∧
      sceneHit scene r (traceLoop r scene).closestIndex ∧
      (traceLoop r scene).close =
        sceneDist scene r (traceLoop r scene).closestIndex ∧
      (∀ k, k < scene.length → sceneHit scene r k →
        (traceLoop r scene).close ≤ sceneDist scene r k ∧
        (sceneDist scene r k = (traceLoop r scene).close →
          (traceLoop r scene).closestIndex ≤ k))) := by
  obtain ⟨-, -, -, -, h5, -, h7⟩ :=
    traceUpTo_invariant r scene scene.length le_rfl
  rw [traceLoop_eq_upTo]
  exact ⟨h5, h7 HD⟩

/-- Witness for C3 on the concrete two-sphere scene sceneW probed by rW:
both hypotheses hold there, the loop reports a hit, and its close value
is the origin-to-position distance of the selected primitive, minimal
among both entries. -/
theorem rayTrace_nearest_hit_witness :
    ¬ (traceLoop rW sceneW).background ∧
    (traceLoop rW sceneW).close =
      sceneDist sceneW rW (traceLoop rW sceneW).closestIndex ∧
    (traceLoop rW sceneW).close ≤ sceneDist sceneW rW 0 ∧
    (traceLoop rW sceneW).close ≤ sceneDist sceneW rW 1 := by
  have hne : sceneW ≠ [] := by simp [sceneW]
  have hlen : sceneW.length = 2 := rfl
  have HD : ∀ k, k < sceneW.length → sceneHit sceneW rW k →
      sceneDist sceneW rW k < FLT_MAX := by
    intro k hk _
    rw [hlen] at hk
    have hk2 : k = 0 ∨ k = 1 := by omega
    rcases hk2 with h | h <;> subst h
    · rw [distW0]
      norm_num [FLT_MAX]
    · rw [distW1]
      norm_num [FLT_MAX]
  have h := rayTrace_nearest_hit rW sceneW hne HD
  have hbg : ¬ (traceLoop rW sceneW).background := by
    intro hbg
    exact h.1.mp hbg 0 (by rw [hlen]; norm_num) sphA_hit
  obtain ⟨-, -, hclose, hmin⟩ := h.2 hbg
  exact ⟨hbg, hclose, (hmin 0 (by rw [hlen]; norm_num) sphA_hit).1,
    (hmin 1 (by rw [hlen]; norm_num) sphB_hit).1⟩

end

noncomputable section

theorem glmNormalize_z3 : glmNormalize ⟨0, 0, 3⟩ = ⟨0, 0, 1⟩ := by
  rw [glmNormalize_eval ⟨0, 0, 3⟩ 3 (by
    rw [glmDot]
    norm_num
    exact sqrt_eval 9 3 (by norm_num) (by norm_num))]
  ext <;> norm_num

/-- C1 (refutation of the stated attenuation, supporting a code-bug
verdict): at point (0,0,0), normal (0,0,1), diffuse (80,80,80), caller
distance 2 and a unit-intensity light at (0,0,3), the code's lambert
returns (80,80,80), while the claimed inverse-square value
diffuse * (intensity/2²) * max(0, dot(normal, lightDir)) is (20,20,20).
The source's factor (light.intensity / distance * distance) parses as
(intensity / distance) * distance, so the distance cancels and no
inverse-square attenuation takes place. -/
theorem lambert_unattenuated_c1 :
    lambert ⟨0, 0, 0⟩ ⟨0, 0, 1⟩ ⟨80, 80, 80⟩ 2 rW ⟨⟨0, 0, 3⟩, 1⟩ =
      ⟨80, 80, 80⟩ ∧
    (⟨80, 80, 80⟩ : Color) * ((1 : ℝ) / (2 * 2)) *
      max 0 (glmDot ⟨0, 0, 1⟩ (glmNormalize ((⟨0, 0, 3⟩ : Vec3) - ⟨0, 0, 0⟩))) =
      ⟨20, 20, 20⟩ ∧
    ((⟨80, 80, 80⟩ : Color) ≠ ⟨20, 20, 20⟩) := by
  have hsub : (⟨0, 0, 3⟩ : Vec3) - ⟨0, 0, 0⟩ = ⟨0, 0, 3⟩ := by
    ext <;> norm_num
  have hdot : glmDot ⟨0, 0, 1⟩ (⟨0, 0, 1⟩ : Vec3) = 1 := by
    rw [glmDot]; norm_num
  have hmax : max (0 : ℝ) 1 = 1 := by norm_num
  refine ⟨?_, ?_, ?_⟩
  · simp only [lambert, hsub, glmNormalize_z3]
    rw [hdot, hmax]
    ext <;> simp <;> norm_num
  · simp only [hsub, glmNormalize_z3, hdot, hmax]
    ext <;> norm_num
  · norm_num [Color.ext_iff]

/-- C2 (refutation of the ambient inclusion, supporting a code-bug
verdict): shade never adds the ambient term.  With no lights at all the
claimed composition reduces to ambient(diffuse), which for diffuse
(100,100,100) is (5,5,5), yet shade returns black.  In the source the
ambient summand survives only in a commented-out line of phong (whose
header comment still lists ambient), and ambient() is called nowhere in
the shading path. -/
theorem shade_omits_ambient_c2 :
    shade ⟨0, 0, 25⟩ sceneW 2 [] [] ⟨0, 0, 0⟩ ⟨0, 1, 0⟩ ⟨100, 100, 100⟩ 5
      lightGray 100 rW = ⟨0, 0, 0⟩ ∧
    ambient ⟨100, 100, 100⟩ = ⟨5, 5, 5⟩ ∧
    ((⟨5, 5, 5⟩ : Color) ≠ ⟨0, 0, 0⟩) := by
  refine ⟨rfl, ?_, ?_⟩
  · ext <;> simp [ambient] <;> norm_num
  · norm_num [Color.ext_iff]

end

noncomputable section


end

noncomputable section

theorem intersectRayPlane_pos (orig dir po pn : Vec3) (t : ℝ)
    (h : intersectRayPlane orig dir po pn = some t) : 0 < t := by
  simp only [intersectRayPlane] at h
  by_cases h1 : glmEps < |glmDot dir pn|
  · rw [if_pos h1] at h
    by_cases h2 : 0 < glmDot (po - orig) pn / glmDot dir pn
    · rw [if_pos h2] at h
      have := Option.some.inj h
      rw [← this]
      exact h2
    · rw [if_neg h2] at h
      exact absurd h (by simp)
  · rw [if_neg h1] at h
    exact absurd h (by simp)

/-- C6 (amended): Plane::intersect reports a hit exactly when the glm
infinite-plane test returns some t (necessarily t > 0) and the world
point passes the two strict 1D interval tests the code performs — which
are always taken on the world x and z axes (position.x ± width/2 and
position.z ± height/2), coinciding with the plane's in-plane axes only
for the ground orientation normal (0,1,0). -/
theorem plane_intersect_bounds_c6 (pl : Plane) (ray : Ray) (p n : Vec3) :
    (pl.intersect ray p n).1 ↔
      ∃ t, intersectRayPlane ray.p ray.d pl.position pl.normal = some t ∧
        0 < t ∧
        ((ray.evalPoint t).x < pl.position.x + pl.width / 2 ∧
         pl.position.x - pl.width / 2 < (ray.evalPoint t).x ∧
         (ray.evalPoint t).z < pl.position.z + pl.height / 2 ∧
         pl.position.z - pl.height / 2 < (ray.evalPoint t).z) := by
  rw [plane_intersect_hit_iff]
  constructor
  · rintro ⟨t, ht, hb⟩
    exact ⟨t, ht, intersectRayPlane_pos _ _ _ _ _ ht, hb⟩
  · rintro ⟨t, ht, -, hb⟩
    exact ⟨t, ht, hb⟩

theorem wall_plane_eval :
    intersectRayPlane wallRay.p wallRay.d wallPl.position wallPl.normal =
      some 5 := by
  apply intersectRayPlane_eval_hit
  · rw [show wallRay.d = ⟨0, 0, -1⟩ from rfl,
      show wallPl.normal = ⟨0, 0, 1⟩ from rfl, glmDot]
    norm_num [glmEps]
  · rw [show wallRay.d = ⟨0, 0, -1⟩ from rfl,
      show wallPl.normal = ⟨0, 0, 1⟩ from rfl,
      show wallRay.p = ⟨0, 1000, 5⟩ from rfl,
      show wallPl.position = ⟨0, 0, 0⟩ from rfl]
    rw [show (⟨0, 0, 0⟩ : Vec3) - ⟨0, 1000, 5⟩ = ⟨0, -1000, -5⟩ from by
      ext <;> norm_num]
    rw [glmDot, glmDot]
    norm_num
  · norm_num

theorem wallRay_evalPoint : wallRay.evalPoint 5 = ⟨0, 1000, 0⟩ := by
  rw [Ray.evalPoint, show wallRay.p = ⟨0, 1000, 5⟩ from rfl,
    show wallRay.d = ⟨0, 0, -1⟩ from rfl]
  ext <;> simp <;> norm_num

/-- C6 counterexample: wallPl's normal is (0,0,1), so its in-plane axes
are x and y, but the code's interval tests use x and z.  wallRay meets
the infinite plane at (0,1000,0) — 1000 units along the in-plane y axis
from the centre of the 20 by 20 patch, far outside the rectangular
extent — yet Plane::intersect reports a hit. -/
theorem plane_bounds_counterexample_c6 :
    (wallPl.intersect wallRay 0 0).1 ∧
    (wallRay.evalPoint 5).y = 1000 ∧
    wallPl.position.y + wallPl.height / 2 = 10 ∧
    ¬ |(wallRay.evalPoint 5).y - wallPl.position.y| < wallPl.height / 2 := by
  refine ⟨?_, ?_, ?_, ?_⟩
  · rw [plane_intersect_hit_iff]
    refine ⟨5, wall_plane_eval, ?_⟩
    rw [wallRay_evalPoint]
    norm_num [wallPl]
  · rw [wallRay_evalPoint]
  · norm_num [wallPl]
  · rw [wallRay_evalPoint]
    norm_num [wallPl]

/-- C8: degenerate geometry is a miss, never an error.  A ray parallel
to a plane (dot of direction and normal equal to zero — this includes a
zero direction) makes Plane::intersect report no hit, and a zero-length
direction makes Sphere::intersect report no hit (under IEEE arithmetic
normalize(0) is NaN and every glm comparison on NaN is false).  Both
embedded functions are total, so no exception is possible. -/
theorem degenerate_ray_miss_c8 :
    (∀ (pl : Plane) (ray : Ray) (p n : Vec3),
      glmDot ray.d pl.normal = 0 → ¬ (pl.intersect ray p n).1) ∧
    (∀ (s : Sphere) (ray : Ray) (p n : Vec3),
      ray.d = 0 → ¬ (s.intersect ray p n).1) := by
  constructor
  · intro pl ray p n hd
    rw [plane_intersect_hit_iff]
    rintro ⟨t, ht, -⟩
    rw [intersectRayPlane_eval_parallel _ _ _ _ hd] at ht
    exact absurd ht (by simp)
  · intro s ray p n hd
    rw [sphere_intersect_hit_iff]
    rintro ⟨hne, -⟩
    exact hne hd

/-- Witness for C8: a ray running parallel above the ground plane is a
miss, and a zero-direction ray misses the sphere sphA. -/
theorem degenerate_ray_miss_c8_witness :
    glmDot (⟨1, 0, 0⟩ : Vec3) groundPl.normal = 0 ∧
    ¬ ((groundPl.intersect ⟨⟨0, 3, 0⟩, ⟨1, 0, 0⟩⟩ 0 0).1) ∧
    (⟨⟨0, 0, 0⟩, ⟨0, 0, 0⟩⟩ : Ray).d = 0 ∧
    ¬ ((sphA.intersect ⟨⟨0, 0, 0⟩, ⟨0, 0, 0⟩⟩ 0 0).1) := by
  have h1 : glmDot (⟨1, 0, 0⟩ : Vec3) groundPl.normal = 0 := by
    rw [show groundPl.normal = ⟨0, 1, 0⟩ from rfl, glmDot]
    norm_num
  have h2 : (⟨⟨0, 0, 0⟩, ⟨0, 0, 0⟩⟩ : Ray).d = 0 := rfl
  exact ⟨h1, degenerate_ray_miss_c8.1 groundPl ⟨⟨0, 3, 0⟩, ⟨1, 0, 0⟩⟩ 0 0 h1, h2,
    degenerate_ray_miss_c8.2 sphA ⟨⟨0, 0, 0⟩, ⟨0, 0, 0⟩⟩ 0 0 h2⟩

end

noncomputable section

/-- C9 (amended): intersect leaves position, colours, the sphere radius,
the plane extents and the plane's normal unchanged; besides the cached
intersection point, Sphere::intersect additionally overwrites the
sphere's stored normal field (the cache getNormal reads back) on every
call. -/
theorem intersect_preserves_persistent_c9 :
    (∀ (s : Sphere) (ray : Ray) (p n : Vec3),
      ((s.intersect ray p n).2.2.2).position = s.position ∧
      ((s.intersect ray p n).2.2.2).radius = s.radius ∧
      ((s.intersect ray p n).2.2.2).diffuseColor = s.diffuseColor ∧
      ((s.intersect ray p n).2.2.2).specularColor = s.specularColor) ∧
    (∀ (pl : Plane) (ray : Ray) (p n : Vec3),
      ((pl.intersect ray p n).2.2.2).position = pl.position ∧
      ((pl.intersect ray p n).2.2.2).normal = pl.normal ∧
      ((pl.intersect ray p n).2.2.2).width = pl.width ∧
      ((pl.intersect ray p n).2.2.2).height = pl.height ∧
      ((pl.intersect ray p n).2.2.2).diffuseColor = pl.diffuseColor ∧
      ((pl.intersect ray p n).2.2.2).specularColor = pl.specularColor) :=
  ⟨sphere_intersect_fields, plane_intersect_fields⟩

theorem sphA_intersect_eval :
    sphA.intersect rW 0 0 =
      (True, ⟨0, 0, -4⟩, ⟨0, 0, 1⟩,
        { sphA with normal := ⟨0, 0, 1⟩, intersectionPoint := ⟨0, 0, -4⟩ }) := by
  unfold Sphere.intersect
  rw [if_neg (show ¬ rW.d = 0 from negz_ne_zero)]
  have hs : intersectRaySphere rW.p (glmNormalize rW.d) sphA.position sphA.radius =
      some (⟨0, 0, -4⟩, ⟨0, 0, 1⟩) := by
    rw [show rW.p = ⟨0, 0, 0⟩ from rfl, show rW.d = ⟨0, 0, -1⟩ from rfl,
      glmNormalize_negz, show sphA.position = ⟨0, 0, -5⟩ from rfl,
      show sphA.radius = 1 from rfl]
    unfold intersectRaySphere
    rw [sphA_dist_eval]
    simp only [Option.some.injEq, Prod.mk.injEq]
    constructor <;> ext <;> simp <;> norm_num
  rw [hs]

/-- C9 counterexample: Sphere::intersect mutates the persistent normal
field.  Intersecting sphA (whose stored normal starts as (0,0,0)) with
rW stores the computed surface normal (0,0,1) into that field. -/
theorem sphere_intersect_mutates_normal_c9 :
    ((sphA.intersect rW 0 0).2.2.2).normal = ⟨0, 0, 1⟩ ∧
    sphA.normal = ⟨0, 0, 0⟩ ∧
    ((⟨0, 0, 1⟩ : Vec3) ≠ ⟨0, 0, 0⟩) := by
  refine ⟨?_, rfl, ?_⟩
  · rw [sphA_intersect_eval]
  · intro h
    have hz := congrArg Vec3.z h
    norm_num at hz

end

noncomputable section

theorem glmNormalize_negz4 : glmNormalize ⟨0, 0, -4⟩ = ⟨0, 0, -1⟩ := by
  rw [glmNormalize_eval ⟨0, 0, -4⟩ 4 (by
    rw [glmDot]
    norm_num
    exact sqrt_eval 16 4 (by norm_num) (by norm_num))]
  ext <;> norm_num

theorem spotCone_isSome :
    (intersectRaySphere ⟨0, 0, 0⟩ ⟨0, 0, -1⟩ ⟨0, 0, -4⟩
      (spotC.coneHeight / 2)).isSome := by
  rw [show spotC.coneHeight = 4 from rfl]
  unfold intersectRaySphere
  have hd : intersectRaySphereDist ⟨0, 0, 0⟩ ⟨0, 0, -1⟩ ⟨0, 0, -4⟩
      (4 / 2 * (4 / 2)) = some 2 := by
    have h := intersectRaySphereDist_eval_far ⟨0, 0, 0⟩ ⟨0, 0, -1⟩ ⟨0, 0, -4⟩
      (4 / 2 * (4 / 2)) 4 0 2
      (by rw [glmDot]; norm_num)
      (by rw [glmDot]; norm_num)
      (by norm_num)
      (by norm_num; exact sqrt_eval 4 2 (by norm_num) (by norm_num))
      (by norm_num [glmEps])
      (by norm_num [glmEps])
    convert h using 2
    norm_num
  rw [hd]
  rfl

/-- C5 (amended): spotLightLambert contributes exactly when the ray from
the render camera toward p hits the bounding sphere of radius
coneHeight/2 about the spotlight's aim point; inside, the contribution
is diffuse * intensity * max(0, dot(norm, normalize(light.position − p)))
— the caller-supplied distance cancels out of the source's factor
(intensity / distance * distance), so no inverse-square attenuation is
applied, and the term is zero rather than positive whenever the surface
faces away from the light; outside the proxy sphere the result is zero;
no specular term exists for spotlights. -/
theorem spotLightLambert_cone_c5 (camPos p norm : Vec3) (diffuse : Color)
    (distance : ℝ) (r : Ray) (light : SpotLight) (hd : distance ≠ 0) :
    spotLightLambert camPos p norm diffuse distance r light =
      if (intersectRaySphere camPos (glmNormalize (p - camPos)) light.aimPoint
          (light.coneHeight / 2)).isSome then
        diffuse * light.intensity *
          max 0 (glmDot norm (glmNormalize (light.position - p)))
      else 0 := by
  unfold spotLightLambert
  by_cases hc : (intersectRaySphere camPos (glmNormalize (p - camPos))
      light.aimPoint (light.coneHeight / 2)).isSome
  · rw [if_pos hc, if_pos hc, div_mul_cancel₀ _ hd, Color.zero_add']
  · rw [if_neg hc, if_neg hc]

/-- Witness for C5: the amended description instantiated at the point
(0,0,-4) with caller distance 2, camera at the origin and the spotlight
spotC. -/
theorem spotLightLambert_cone_c5_witness :
    (2 : ℝ) ≠ 0 ∧
    spotLightLambert ⟨0, 0, 0⟩ ⟨0, 0, -4⟩ ⟨0, 0, 1⟩ ⟨80, 80, 80⟩ 2 rW spotC =
      if (intersectRaySphere ⟨0, 0, 0⟩
          (glmNormalize ((⟨0, 0, -4⟩ : Vec3) - ⟨0, 0, 0⟩)) spotC.aimPoint
          (spotC.coneHeight / 2)).isSome then
        (⟨80, 80, 80⟩ : Color) * spotC.intensity *
          max 0 (glmDot ⟨0, 0, 1⟩ (glmNormalize (spotC.position - ⟨0, 0, -4⟩)))
      else 0 :=
  ⟨by norm_num,
    spotLightLambert_cone_c5 ⟨0, 0, 0⟩ ⟨0, 0, -4⟩ ⟨0, 0, 1⟩ ⟨80, 80, 80⟩ 2 rW
      spotC (by norm_num)⟩

/-- C5 counterexample: at the point (0,0,-4), inside the bounding-sphere
proxy of spotC, with unit intensity, normal (0,0,1) and caller distance
2, the code returns the unattenuated (80,80,80), while the claimed
positive distance-attenuated inverse-square term
diffuse * (intensity/2²) * max(0, dot) evaluates to (20,20,20). -/
theorem spotLightLambert_counterexample_c5 :
    spotLightLambert ⟨0, 0, 0⟩ ⟨0, 0, -4⟩ ⟨0, 0, 1⟩ ⟨80, 80, 80⟩ 2 rW spotC =
      ⟨80, 80, 80⟩ ∧
    (⟨80, 80, 80⟩ : Color) * ((1 : ℝ) / (2 * 2)) *
      max 0 (glmDot ⟨0, 0, 1⟩ (glmNormalize (spotC.position - ⟨0, 0, -4⟩))) =
      ⟨20, 20, 20⟩ ∧
    ((⟨80, 80, 80⟩ : Color) ≠ ⟨20, 20, 20⟩) := by
  have hsub3 : spotC.position - (⟨0, 0, -4⟩ : Vec3) = ⟨0, 0, 3⟩ := by
    rw [show spotC.position = ⟨0, 0, -1⟩ from rfl]
    ext <;> norm_num
  have hdot : glmDot ⟨0, 0, 1⟩ (⟨0, 0, 1⟩ : Vec3) = 1 := by
    rw [glmDot]; norm_num
  have hmax : max (0 : ℝ) 1 = 1 := by norm_num
  refine ⟨?_, ?_, ?_⟩
  · unfold spotLightLambert
    rw [show (⟨0, 0, -4⟩ : Vec3) - ⟨0, 0, 0⟩ = ⟨0, 0, -4⟩ from by ext <;> norm_num,
      glmNormalize_negz4, show spotC.aimPoint = ⟨0, 0, -4⟩ from rfl]
    rw [if_pos spotCone_isSome]
    rw [hsub3, glmNormalize_z3, hdot, hmax,
      show spotC.intensity = 1 from rfl]
    ext <;> simp <;> norm_num
  · rw [hsub3, glmNormalize_z3, hdot, hmax]
    ext <;> norm_num
  · norm_num [Color.ext_iff]

end

noncomputable section

/-- C7: per pixel ofApp::rayTrace computes u as the pixel-centre
fraction (i + .5)/W of the image width, v as the flipped fraction
1 − (j + .5)/H (row j = 0 gives v = 1 − 1/(2H), close to 1), hands
renderCam.getRay(u, v) the pair, and stores exactly ofColor::black
whenever the ray misses every primitive in the scene. -/
theorem rayTrace_background_c7 :
    (∀ (cam : RenderCam) (scene : List SceneObj) (lights : List Light)
      (spots : List SpotLight) (power W H : ℝ) (i j : ℕ),
      rayTracePixel cam scene lights spots power W H i j =
        rayTraceWithRay cam scene lights spots power
          (cam.getRay (((i : ℝ) + 0.5) / W) (1 - ((j : ℝ) + 0.5) / H))) ∧
    (∀ (cam : RenderCam) (scene : List SceneObj) (lights : List Light)
      (spots : List SpotLight) (power : ℝ) (r : Ray),
      (∀ k, k < scene.length → ¬ sceneHit scene r k) →
      rayTraceWithRay cam scene lights spots power r = black) := by
  constructor
  · intro cam scene lights spots power W H i j
    rfl
  · intro cam scene lights spots power r hmiss
    have hbg : (traceLoop r scene).background := by
      obtain ⟨-, -, -, -, h5, -, -⟩ :=
        traceUpTo_invariant r scene scene.length le_rfl
      rw [traceLoop_eq_upTo]
      exact h5.mpr hmiss
    unfold rayTraceWithRay
    rw [if_pos hbg]

/-- Witness for C7: on the empty scene (which every ray misses
vacuously) the pixel colour is exactly black. -/
theorem rayTrace_background_c7_witness :
    rayTraceWithRay ⟨⟨0, 0, 25⟩, ⟨(-3, -2), (3, 2), 5⟩⟩ [] [] [] 100 rW =
      black :=
  rayTrace_background_c7.2 ⟨⟨0, 0, 25⟩, ⟨(-3, -2), (3, 2), 5⟩⟩ [] [] [] 100 rW
    (by intro k hk; simp at hk)

end

noncomputable section

/-- C10: when the primary ray hits, ofApp::rayTrace shades at
r.evalPoint(close) where close is the origin-to-position distance of
the selected primitive (not the surface intersection parameter), with
the normal obtained from getNormal called on a throwaway argument that
every implementation ignores — the sphere returning its cached normal
from the most recent intersect call.  On the concrete single-sphere
scene sceneS the shaded point is the sphere's centre (0,0,-5), at
distance 0 from the centre, hence not on the radius-1 surface. -/
theorem rayTrace_shading_inputs_c10 :
    (∀ (cam : RenderCam) (scene : List SceneObj) (lights : List Light)
      (spots : List SpotLight) (power : ℝ) (r : Ray),
      (∀ k, k < scene.length → sceneHit scene r k →
        sceneDist scene r k < FLT_MAX) →
      ¬ (traceLoop r scene).background →
      rayTraceWithRay cam scene lights spots power r =
        shade cam.position (traceLoop r scene).scene
          (traceLoop r scene).closestIndex lights spots
          (r.evalPoint (traceLoop r scene).close)
          (((traceLoop r scene).scene.getD (traceLoop r scene).closestIndex
            defaultObj).getNormal ⟨0, 0, 0⟩)
          (((traceLoop r scene).scene.getD (traceLoop r scene).closestIndex
            defaultObj).diffuseColor)
          (traceLoop r scene).close lightGray power r ∧
      (traceLoop r scene).close =
        sceneDist scene r (traceLoop r scene).closestIndex) ∧
    (∀ (o : SceneObj) (p q : Vec3), o.getNormal p = o.getNormal q) ∧
    (∀ (s : Sphere) (x : Vec3),
      (SceneObj.sphere s).getNormal x = glmNormalize s.normal) ∧
    (¬ (traceLoop rW sceneS).background ∧
      rW.evalPoint (traceLoop rW sceneS).close = ⟨0, 0, -5⟩ ∧
      glmDistance ⟨0, 0, -5⟩ sphA.position = 0 ∧
      sphA.radius = 1 ∧ ((0 : ℝ) ≠ 1)) := by
  refine ⟨?_, ?_, ?_, ?_⟩
  · intro cam scene lights spots power r HD hbg
    constructor
    · unfold rayTraceWithRay
      rw [if_neg hbg]
    · obtain ⟨-, -, -, -, -, -, h7⟩ :=
        traceUpTo_invariant r scene scene.length le_rfl
      rw [← traceLoop_eq_upTo] at h7
      exact (h7 HD hbg).2.2.1
  · intro o p q
    cases o <;> rfl
  · intro s x
    rfl
  · have hhit : sceneHit sceneS rW 0 := sphA_hit
    have hlen : sceneS.length = 1 := rfl
    have hdist : sceneDist sceneS rW 0 = 5 := distW0
    have HD : ∀ k, k < sceneS.length → sceneHit sceneS rW k →
        sceneDist sceneS rW k < FLT_MAX := by
      intro k hk _
      rw [hlen] at hk
      have hk0 : k = 0 := by omega
      subst hk0
      rw [hdist]
      norm_num [FLT_MAX]
    obtain ⟨-, -, -, -, h5, -, h7⟩ :=
      traceUpTo_invariant rW sceneS sceneS.length le_rfl
    rw [← traceLoop_eq_upTo] at h5 h7
    have hbg : ¬ (traceLoop rW sceneS).background := by
      intro hbg
      exact (h5.mp hbg) 0 (by rw [hlen]; norm_num) hhit
    obtain ⟨hidx, -, hclose, -⟩ := h7 HD hbg
    rw [hlen] at hidx
    have hidx0 : (traceLoop rW sceneS).closestIndex = 0 := by omega
    have hclose5 : (traceLoop rW sceneS).close = 5 := by
      rw [hclose, hidx0, hdist]
    refine ⟨hbg, ?_, ?_, rfl, by norm_num⟩
    · rw [hclose5, Ray.evalPoint, show rW.p = ⟨0, 0, 0⟩ from rfl,
        show rW.d = ⟨0, 0, -1⟩ from rfl]
      ext <;> simp <;> norm_num
    · rw [show sphA.position = ⟨0, 0, -5⟩ from rfl, glmDistance,
        show (⟨0, 0, -5⟩ : Vec3) - ⟨0, 0, -5⟩ = ⟨0, 0, 0⟩ from by ext <;> norm_num,
        glmLength, glmDot]
      norm_num

/-- Witness for C10: the shading call of the hit branch on the concrete
single-sphere scene. -/
theorem rayTrace_shading_inputs_c10_witness :
    rayTraceWithRay ⟨⟨0, 0, 25⟩, ⟨(-3, -2), (3, 2), 5⟩⟩ sceneS [] [] 100 rW =
      shade (⟨⟨0, 0, 25⟩, ⟨(-3, -2), (3, 2), 5⟩⟩ : RenderCam).position
        (traceLoop rW sceneS).scene (traceLoop rW sceneS).closestIndex [] []
        (rW.evalPoint (traceLoop rW sceneS).close)
        (((traceLoop rW sceneS).scene.getD (traceLoop rW sceneS).closestIndex
          defaultObj).getNormal ⟨0, 0, 0⟩)
        (((traceLoop rW sceneS).scene.getD (traceLoop rW sceneS).closestIndex
          defaultObj).diffuseColor)
        (traceLoop rW sceneS).close lightGray 100 rW ∧
    (traceLoop rW sceneS).close =
      sceneDist sceneS rW (traceLoop rW sceneS).closestIndex := by
  have hdist : sceneDist sceneS rW 0 = 5 := distW0
  have HD : ∀ k, k < sceneS.length → sceneHit sceneS rW k →
      sceneDist sceneS rW k < FLT_MAX := by
    intro k hk _
    rw [show sceneS.length = 1 from rfl] at hk
    have hk0 : k = 0 := by omega
    subst hk0
    rw [hdist]
    norm_num [FLT_MAX]
  have hbg : ¬ (traceLoop rW sceneS).background := by
    obtain ⟨-, -, -, -, h5, -, -⟩ :=
      traceUpTo_invariant rW sceneS sceneS.length le_rfl
    rw [← traceLoop_eq_upTo] at h5
    intro hbg
    exact (h5.mp hbg) 0 (by norm_num [sceneS]) sphA_hit
  exact rayTrace_shading_inputs_c10.1 ⟨⟨0, 0, 25⟩, ⟨(-3, -2), (3, 2), 5⟩⟩ sceneS
    [] [] 100 rW HD hbg

end

noncomputable section

open scoped Classical

theorem occBlock_iff (scene : List SceneObj) (sRay : Ray) (b : Prop) :
    occBlock scene sRay b ↔ b ∨ ∃ o ∈ scene.drop 2, o.hit sRay := by
  unfold occBlock
  generalize scene.drop 2 = l
  induction l generalizing b with
  | nil => simp
  | cons a l ih =>
      simp only [List.foldl_cons]
      rw [ih]
      by_cases ha : (a.intersect sRay a.intersectionPoint
          (a.getNormal a.intersectionPoint)).1
      · rw [if_pos ha]
        constructor
        · intro _
          exact Or.inr ⟨a, List.mem_cons_self a l,
            (SceneObj.intersect_fst_eq a sRay _ _).mp ha⟩
        · intro _
          exact Or.inl trivial
      · rw [if_neg ha]
        constructor
        · rintro (hb | ⟨o, ho, hhit⟩)
          · exact Or.inl hb
          · exact Or.inr ⟨o, List.mem_cons_of_mem a ho, hhit⟩
        · rintro (hb | ⟨o, ho, hhit⟩)
          · exact Or.inl hb
          · rcases List.mem_cons.mp ho with rfl | ho2
            · exact absurd ((SceneObj.intersect_fst_eq o sRay _ _).mpr hhit) ha
            · exact Or.inr ⟨o, ho2, hhit⟩

theorem shadowCheck_iff (scene : List SceneObj) (idx : ℕ) (r : Ray)
    (p outN : Vec3) (L : Light) (b : Prop) :
    shadowCheck scene idx r p outN L b ↔
      b ∨ ((scene.getD idx defaultObj).hit r ∧
        ∃ o ∈ scene.drop 2, o.hit
          ⟨(((scene.getD idx defaultObj).intersect r p outN).2.2.2).getIntersectionPoint,
           L.position -
             (((scene.getD idx defaultObj).intersect r p outN).2.2.2).getIntersectionPoint⟩) := by
  unfold shadowCheck
  by_cases h : ((scene.getD idx defaultObj).intersect r p outN).1
  · rw [if_pos h, occBlock_iff]
    have hh := (SceneObj.intersect_fst_eq _ r p outN).mp h
    constructor
    · rintro (hb | hex)
      · exact Or.inl hb
      · exact Or.inr ⟨hh, hex⟩
    · rintro (hb | ⟨-, hex⟩)
      · exact Or.inl hb
      · exact Or.inr hex
  · rw [if_neg h]
    have hh : ¬ (scene.getD idx defaultObj).hit r :=
      fun hx => h ((SceneObj.intersect_fst_eq _ r p outN).mpr hx)
    constructor
    · exact Or.inl
    · rintro (hb | ⟨hx, -⟩)
      · exact hb
      · exact absurd hx hh

theorem lightBlocked_iff (scene : List SceneObj) (r : Ray) (L : Light)
    (p : Vec3) :
    lightBlocked scene r L p ↔
      ((scene.getD 0 defaultObj).hit r ∧
        ∃ o ∈ scene.drop 2, o.hit
          ⟨(((scene.getD 0 defaultObj).intersect r p ⟨0, 1, 0⟩).2.2.2).getIntersectionPoint,
           L.position -
             (((scene.getD 0 defaultObj).intersect r p ⟨0, 1, 0⟩).2.2.2).getIntersectionPoint⟩) ∨
      ((scene.getD 1 defaultObj).hit r ∧
        ∃ o ∈ scene.drop 2, o.hit
          ⟨(((scene.getD 1 defaultObj).intersect r p ⟨0, 0, 1⟩).2.2.2).getIntersectionPoint,
           L.position -
             (((scene.getD 1 defaultObj).intersect r p ⟨0, 0, 1⟩).2.2.2).getIntersectionPoint⟩) := by
  unfold lightBlocked
  rw [shadowCheck_iff, shadowCheck_iff, false_or]

theorem shade_lights_fold (camPos : Vec3) (scene : List SceneObj)
    (closestIndex : ℕ) (p norm : Vec3) (diffuse : Color) (distance : ℝ)
    (specular : Color) (power : ℝ) (r : Ray) (lights : List Light)
    (init : Color) :
    lights.foldl
      (fun acc L =>
        if ¬ (if closestIndex < 2 then lightBlocked scene r L p else False) then
          acc + phong camPos p norm diffuse specular power distance r L
        else acc) init =
      init + colorSum (lights.map fun L =>
        if closestIndex < 2 ∧ lightBlocked scene r L p then 0
        else phong camPos p norm diffuse specular power distance r L) := by
  induction lights generalizing init with
  | nil => simp [colorSum_nil, Color.add_zero']
  | cons a l ih =>
      simp only [List.foldl_cons, List.map_cons, colorSum_cons]
      rw [ih]
      by_cases hc : closestIndex < 2
      · by_cases hb : lightBlocked scene r a p
        · have h1 : ¬ ¬ (if closestIndex < 2 then lightBlocked scene r a p
              else False) := by
            rw [if_pos hc]
            exact not_not_intro hb
          rw [if_neg h1, if_pos ⟨hc, hb⟩, Color.zero_add']
        · have h1 : ¬ (if closestIndex < 2 then lightBlocked scene r a p
              else False) := by
            rw [if_pos hc]
            exact hb
          rw [if_pos h1, if_neg (fun hx => hb hx.2), Color.add_assoc']
      · have h1 : ¬ (if closestIndex < 2 then lightBlocked scene r a p
            else False) := by
          rw [if_neg hc]
          exact not_false
        rw [if_pos h1, if_neg (fun hx => hc hx.1), Color.add_assoc']

/-- The declarative form of ofApp::shade: the light loop contributes,
for every point light, its phong term unless closestIndex < 2 and the
shadow checks block it; the spotlight loop always adds its term. -/
theorem shade_eq_sum (camPos : Vec3) (scene : List SceneObj)
    (closestIndex : ℕ) (lights : List Light) (spots : List SpotLight)
    (p norm : Vec3) (diffuse : Color) (distance : ℝ) (specular : Color)
    (power : ℝ) (r : Ray) :
    shade camPos scene closestIndex lights spots p norm diffuse distance
        specular power r =
      colorSum (lights.map fun L =>
        if closestIndex < 2 ∧ lightBlocked scene r L p then 0
        else phong camPos p norm diffuse specular power distance r L) +
      colorSum (spots.map fun S =>
        spotLightLambert camPos p norm diffuse distance r S) := by
  simp only [shade]
  rw [shade_lights_fold]
  simp only [foldl_add_colorSum]
  rw [Color.zero_add']

end

noncomputable section


end

noncomputable section

open scoped Classical

/-- C4 (amended): shade's shadow policy.  (1) When closestIndex ≥ 2 (a
sphere slot) every point light contributes in full — sphere points are
never shadow-tested; spotlight terms are always added, never
shadow-tested.  (2) In general the colour is the sum of each light's
phong term gated by closestIndex < 2 and the blocked flag, plus every
spotlight term.  (3) The blocked flag holds exactly when scene[0]
(respectively scene[1]) is hit by the primary ray and some primitive of
index ≥ 2 intersects, at any positive parameter — even beyond the
light — the shadow ray from that plane's refreshed cached intersection
point toward the light. -/
theorem shade_shadow_policy_c4 :
    (∀ (camPos : Vec3) (scene : List SceneObj) (closestIndex : ℕ)
      (lights : List Light) (spots : List SpotLight) (p norm : Vec3)
      (diffuse : Color) (distance : ℝ) (specular : Color) (power : ℝ)
      (r : Ray),
      2 ≤ closestIndex →
      shade camPos scene closestIndex lights spots p norm diffuse distance
          specular power r =
        colorSum (lights.map fun L =>
          phong camPos p norm diffuse specular power distance r L) +
        colorSum (spots.map fun S =>
          spotLightLambert camPos p norm diffuse distance r S)) ∧
    (∀ (camPos : Vec3) (scene : List SceneObj) (closestIndex : ℕ)
      (lights : List Light) (spots : List SpotLight) (p norm : Vec3)
      (diffuse : Color) (distance : ℝ) (specular : Color) (power : ℝ)
      (r : Ray),
      shade camPos scene closestIndex lights spots p norm diffuse distance
          specular power r =
        colorSum (lights.map fun L =>
          if closestIndex < 2 ∧ lightBlocked scene r L p then 0
          else phong camPos p norm diffuse specular power distance r L) +
        colorSum (spots.map fun S =>
          spotLightLambert camPos p norm diffuse distance r S)) ∧
    (∀ (scene : List SceneObj) (r : Ray) (L : Light) (p : Vec3),
      lightBlocked scene r L p ↔
        ((scene.getD 0 defaultObj).hit r ∧
          ∃ o ∈ scene.drop 2, o.hit
            ⟨(((scene.getD 0 defaultObj).intersect r p ⟨0, 1, 0⟩).2.2.2).getIntersectionPoint,
             L.position -
               (((scene.getD 0 defaultObj).intersect r p ⟨0, 1, 0⟩).2.2.2).getIntersectionPoint⟩) ∨
        ((scene.getD 1 defaultObj).hit r ∧
          ∃ o ∈ scene.drop 2, o.hit
            ⟨(((scene.getD 1 defaultObj).intersect r p ⟨0, 0, 1⟩).2.2.2).getIntersectionPoint,
             L.position -
               (((scene.getD 1 defaultObj).intersect r p ⟨0, 0, 1⟩).2.2.2).getIntersectionPoint⟩)) := by
  refine ⟨?_, ?_, ?_⟩
  · intro camPos scene closestIndex lights spots p norm diffuse distance
      specular power r h2
    rw [shade_eq_sum]
    have hmapeq : (fun L =>
        if closestIndex < 2 ∧ lightBlocked scene r L p then (0 : Color)
        else phong camPos p norm diffuse specular power distance r L) =
        (fun L => phong camPos p norm diffuse specular power distance r L) :=
      funext fun L => if_neg (fun hx => absurd hx.1 (Nat.not_lt.mpr h2))
    rw [hmapeq]
  · intro camPos scene closestIndex lights spots p norm diffuse distance
      specular power r
    exact shade_eq_sum camPos scene closestIndex lights spots p norm diffuse
      distance specular power r
  · intro scene r L p
    exact lightBlocked_iff scene r L p

/-- Witness for C4: the sphere-slot clause instantiated at
closestIndex = 2 on the concrete scene sceneW with the shipped top-right
light and no spotlights. -/
theorem shade_shadow_policy_c4_witness :
    (2 : ℕ) ≤ 2 ∧
    shade ⟨0, 0, 25⟩ sceneW 2 [lightTop] [] ⟨0, 0, -4⟩ ⟨0, 0, 1⟩
        ⟨128, 128, 128⟩ 5 lightGray 100 rW =
      colorSum ([lightTop].map fun L =>
        phong ⟨0, 0, 25⟩ ⟨0, 0, -4⟩ ⟨0, 0, 1⟩ ⟨128, 128, 128⟩ lightGray 100 5
          rW L) +
      colorSum (([] : List SpotLight).map fun S =>
        spotLightLambert ⟨0, 0, 25⟩ ⟨0, 0, -4⟩ ⟨0, 0, 1⟩ ⟨128, 128, 128⟩ 5
          rW S) :=
  ⟨le_refl 2,
    shade_shadow_policy_c4.1 ⟨0, 0, 25⟩ sceneW 2 [lightTop] [] ⟨0, 0, -4⟩
      ⟨0, 0, 1⟩ ⟨128, 128, 128⟩ 5 lightGray 100 rW (le_refl 2)⟩

end

noncomputable section

open scoped Classical

theorem glmNormalize_y2 : glmNormalize ⟨0, 2, 0⟩ = ⟨0, 1, 0⟩ := by
  rw [glmNormalize_eval ⟨0, 2, 0⟩ 2 (by
    rw [glmDot]
    norm_num
    exact sqrt_eval 4 2 (by norm_num) (by norm_num))]
  ext <;> norm_num

theorem y2_ne_zero : ¬ (⟨0, 2, 0⟩ : Vec3) = 0 := by
  intro h
  have hy := congrArg Vec3.y h
  rw [vec3_zero_def] at hy
  norm_num at hy

theorem ground_plane_some :
    intersectRayPlane r4.p r4.d groundPl.position groundPl.normal = some 10 := by
  apply intersectRayPlane_eval_hit
  · rw [show r4.d = ⟨0, -1, 0⟩ from rfl,
      show groundPl.normal = ⟨0, 1, 0⟩ from rfl, glmDot]
    norm_num [glmEps]
  · rw [show r4.d = ⟨0, -1, 0⟩ from rfl,
      show groundPl.normal = ⟨0, 1, 0⟩ from rfl,
      show r4.p = ⟨0, 5, 0⟩ from rfl,
      show groundPl.position = ⟨0, -5, 0⟩ from rfl,
      show (⟨0, -5, 0⟩ : Vec3) - ⟨0, 5, 0⟩ = ⟨0, -10, 0⟩ from by ext <;> norm_num,
      glmDot, glmDot]
    norm_num
  · norm_num

theorem r4_evalPoint10 : r4.evalPoint 10 = ⟨0, -5, 0⟩ := by
  rw [Ray.evalPoint, show r4.p = ⟨0, 5, 0⟩ from rfl,
    show r4.d = ⟨0, -1, 0⟩ from rfl]
  ext <;> simp <;> norm_num

theorem ground_hit_r4 : (scene4.getD 0 defaultObj).hit r4 := by
  show (SceneObj.plane groundPl).hit r4
  rw [SceneObj.hit]
  show (groundPl.intersect r4 0 0).1
  rw [plane_intersect_hit_iff]
  refine ⟨10, ground_plane_some, ?_⟩
  rw [r4_evalPoint10]
  norm_num [groundPl]

theorem hip0_eval :
    (((scene4.getD 0 defaultObj).intersect r4 ⟨0, -5, 0⟩
      ⟨0, 1, 0⟩).2.2.2).getIntersectionPoint = ⟨0, -5, 0⟩ := by
  show (((SceneObj.plane groundPl).intersect r4 ⟨0, -5, 0⟩
    ⟨0, 1, 0⟩).2.2.2).getIntersectionPoint = ⟨0, -5, 0⟩
  simp only [SceneObj.intersect, SceneObj.getIntersectionPoint]
  unfold Plane.intersect
  rw [ground_plane_some]
  simp only []
  exact r4_evalPoint10

theorem occ_dist_eval :
    intersectRaySphereDist ⟨0, -5, 0⟩ ⟨0, 1, 0⟩ ⟨0, 5, 0⟩ (1 * 1) = some 9 := by
  have h := intersectRaySphereDist_eval_far ⟨0, -5, 0⟩ ⟨0, 1, 0⟩ ⟨0, 5, 0⟩
    (1 * 1) 10 0 1
    (by rw [glmDot]; norm_num)
    (by rw [glmDot]; norm_num)
    (by norm_num)
    (by norm_num)
    (by norm_num [glmEps])
    (by norm_num [glmEps])
  convert h using 2
  norm_num

theorem occ_hit_shadow :
    (SceneObj.sphere occSph).hit ⟨⟨0, -5, 0⟩, ⟨0, 2, 0⟩⟩ := by
  rw [SceneObj.hit]
  show (occSph.intersect ⟨⟨0, -5, 0⟩, ⟨0, 2, 0⟩⟩ 0 0).1
  rw [sphere_intersect_hit_iff]
  constructor
  · exact y2_ne_zero
  · rw [show (⟨⟨0, -5, 0⟩, ⟨0, 2, 0⟩⟩ : Ray).p = ⟨0, -5, 0⟩ from rfl,
      show (⟨⟨0, -5, 0⟩, ⟨0, 2, 0⟩⟩ : Ray).d = ⟨0, 2, 0⟩ from rfl,
      glmNormalize_y2, show occSph.position = ⟨0, 5, 0⟩ from rfl,
      show occSph.radius = 1 from rfl]
    unfold intersectRaySphere
    rw [occ_dist_eval]
    rfl

theorem lightBlocked_c4 : lightBlocked scene4 r4 L4 ⟨0, -5, 0⟩ := by
  rw [lightBlocked_iff]
  left
  refine ⟨ground_hit_r4, .sphere occSph, ?_, ?_⟩
  · simp [scene4]
  · rw [hip0_eval, show L4.position - (⟨0, -5, 0⟩ : Vec3) = ⟨0, 2, 0⟩ from by
      rw [show L4.position = ⟨0, -3, 0⟩ from rfl]
      ext <;> norm_num]
    exact occ_hit_shadow

theorem lightDist_c4 : glmDistance (⟨0, -5, 0⟩ : Vec3) L4.position = 2 := by
  rw [glmDistance, show L4.position = ⟨0, -3, 0⟩ from rfl,
    show (⟨0, -5, 0⟩ : Vec3) - ⟨0, -3, 0⟩ = ⟨0, -2, 0⟩ from by ext <;> norm_num,
    glmLength, glmDot]
  norm_num
  exact sqrt_eval 4 2 (by norm_num) (by norm_num)

theorem phong_c4_value :
    phong ⟨0, 0, 25⟩ ⟨0, -5, 0⟩ ⟨0, 1, 0⟩ ⟨128, 128, 128⟩ ⟨0, 0, 0⟩ 100 10 r4
      L4 = ⟨128, 128, 128⟩ := by
  have hsub2 : L4.position - (⟨0, -5, 0⟩ : Vec3) = ⟨0, 2, 0⟩ := by
    rw [show L4.position = ⟨0, -3, 0⟩ from rfl]
    ext <;> norm_num
  have hdist1 : glmDistance L4.position ⟨0, -5, 0⟩ = 2 := by
    rw [glmDistance, show L4.position = ⟨0, -3, 0⟩ from rfl,
      show (⟨0, -3, 0⟩ : Vec3) - ⟨0, -5, 0⟩ = ⟨0, 2, 0⟩ from by ext <;> norm_num,
      glmLength, glmDot]
    norm_num
    exact sqrt_eval 4 2 (by norm_num) (by norm_num)
  have hdotY : glmDot ⟨0, 1, 0⟩ (⟨0, 1, 0⟩ : Vec3) = 1 := by
    rw [glmDot]
    norm_num
  have hmax : max (0 : ℝ) 1 = 1 := by norm_num
  simp only [phong, lambert]
  rw [hsub2, glmNormalize_y2, hdist1, hdotY, hmax,
    show L4.intensity = 1 from rfl]
  ext <;> simp <;> norm_num

/-- C4 counterexample: on scene4 = [ground, wall, occluder] the primary
ray r4 hits the ground plane (closestIndex 0) at (0,-5,0); the light L4
is 2 units along the shadow ray while the only occluder intersects that
shadow ray at parameter 9, beyond the light; the claim then requires the
light's (nonzero) phong contribution to survive, but shade discards it
entirely and returns black. -/
theorem shade_shadow_counterexample_c4 :
    shade ⟨0, 0, 25⟩ scene4 0 [L4] [] ⟨0, -5, 0⟩ ⟨0, 1, 0⟩ ⟨128, 128, 128⟩ 10
      ⟨0, 0, 0⟩ 100 r4 = ⟨0, 0, 0⟩ ∧
    intersectRaySphereDist ⟨0, -5, 0⟩ ⟨0, 1, 0⟩ ⟨0, 5, 0⟩ (1 * 1) = some 9 ∧
    glmDistance (⟨0, -5, 0⟩ : Vec3) L4.position = 2 ∧
    (2 : ℝ) < 9 ∧
    phong ⟨0, 0, 25⟩ ⟨0, -5, 0⟩ ⟨0, 1, 0⟩ ⟨128, 128, 128⟩ ⟨0, 0, 0⟩ 100 10 r4
      L4 ≠ ⟨0, 0, 0⟩ := by
  refine ⟨?_, occ_dist_eval, lightDist_c4, by norm_num, ?_⟩
  · rw [shade_eq_sum]
    simp only [List.map_cons, List.map_nil, colorSum_cons, colorSum_nil]
    rw [if_pos ⟨by norm_num, lightBlocked_c4⟩]
    ext <;> simp
  · rw [phong_c4_value]
    intro h
    have hr := congrArg Color.r h
    norm_num at hr

end
